import Mathlib

/-!
Verification of the incremental Udemy course scraper (`scrape.py`) against its
natural-language specification.

The development shallowly embeds the program: pure string processing is
translated into executable Lean functions; the browser session, the filesystem
and the spreadsheet library are modelled as explicit parameters (oracles for
call outcomes, lists for file contents); Python exceptions become explicit
outcome constructors; Python `float` arithmetic on the parsed duration numbers
is modelled by exact rationals; Python `int()` truncation of the (always
non-negative) total is modelled by `Int.floor`.
-/

namespace UdemyScraper

/-! ## Duration normalizer (`_convert_to_minutes`, scrape.py lines 485-506)

The source applies `re.search(r"(\d+(?:\.\d+)?)\s*hours?", time_str)` and
`re.search(r"(\d+)\s*mins?", time_str)` (both case-sensitive: no `re.I` flag),
adds `float(group)*60` resp. `int(group)` to a running total and returns
`int(total)`.

`re.search` returns the match at the leftmost feasible start position.  For
these two patterns backtracking never helps: shrinking a greedy `\d+` leaves a
digit in front of the remainder, which can start neither `\.`, nor `\s*hours?`,
nor `\s*mins?`; and when the optional fractional group sees `.` not followed by
a digit, the group-absent alternative would have to match `\s*hours?` starting
at `.`, which is impossible.  Hence maximal-munch scanning over successive
start positions, as implemented below, is exactly `re.search` for them.
`\d` and `\s` are modelled at their ASCII meaning. -/

/-- ASCII whitespace, the characters Python `\s` accepts on ASCII input. -/
def isSpaceChar (c : Char) : Bool :=
  c = ' ' || c = '\t' || c = '\n' || c = '\r' || c = '\x0b' || c = '\x0c'

/-- Numeric value of a run of decimal digit characters (Python `int`/`float`
on the captured group). -/
def digitsVal (ds : List Char) : Nat :=
  ds.foldl (fun a c => a * 10 + (c.toNat - 48)) 0

/-- After the number, the hours pattern still needs `\s*hour` (the final `s?`
is irrelevant to whether and what the group captures). -/
def hourAfter (cs : List Char) : Bool :=
  List.isPrefixOf ['h', 'o', 'u', 'r'] (cs.dropWhile isSpaceChar)

/-- After the number, the minutes pattern still needs `\s*min`. -/
def minAfter (cs : List Char) : Bool :=
  List.isPrefixOf ['m', 'i', 'n'] (cs.dropWhile isSpaceChar)

/-- Match `(\d+(?:\.\d+)?)\s*hours?` anchored at the head of `cs`.  Returns
the captured group as `(all digits read as one integer, number of fractional
digits)`, i.e. the pair `(a, k)` denotes the number `a / 10 ^ k`. -/
def matchHoursAt (cs : List Char) : Option (Nat × Nat) :=
  let (ds, rest) := cs.span Char.isDigit
  if ds.isEmpty then none
  else
    match rest with
    | '.' :: rest2 =>
      let (fs, rest3) := rest2.span Char.isDigit
      if fs.isEmpty then none
      else if hourAfter rest3 then some (digitsVal (ds ++ fs), fs.length) else none
    | _ => if hourAfter rest then some (digitsVal ds, 0) else none

/-- Match `(\d+)\s*mins?` anchored at the head of `cs`. -/
def matchMinsAt (cs : List Char) : Option Nat :=
  let (ds, rest) := cs.span Char.isDigit
  if ds.isEmpty then none
  else if minAfter rest then some (digitsVal ds) else none

/-- `re.search` for the hours pattern: leftmost start position wins. -/
def searchHours : List Char → Option (Nat × Nat)
  | [] => none
  | c :: cs =>
    match matchHoursAt (c :: cs) with
    | some r => some r
    | none => searchHours cs

/-- `re.search` for the minutes pattern: leftmost start position wins. -/
def searchMins : List Char → Option Nat
  | [] => none
  | c :: cs =>
    match matchMinsAt (c :: cs) with
    | some r => some r
    | none => searchMins cs

/-- The running `total_minutes` of `_convert_to_minutes`: starts at `0`, adds
`float(hours_group) * 60` if the hours pattern matched, then adds
`int(mins_group)` if the minutes pattern matched.  The Python floats arising
here are decimal literals; they are modelled by exact rationals. -/
def minsTotal (s : String) : ℚ :=
  let total0 : ℚ := 0
  let total1 : ℚ :=
    match searchHours s.data with
    | some (a, k) => total0 + (a : ℚ) / 10 ^ k * 60
    | none => total0
  match searchMins s.data with
  | some m => total1 + (m : ℚ)
  | none => total1

/-- `_convert_to_minutes` (scrape.py 485-506): `"N/A"` maps to `0`, otherwise
the accumulated total is truncated by `int(...)`; the total is non-negative,
so truncation is `Int.floor`. -/
def _convert_to_minutes (time_str : String) : Int :=
  if time_str = "N/A" then 0 else Int.floor (minsTotal time_str)

/-! ### Reference definition of spec section 4.4

The spec (and claim C1) describe `to_minutes` with the same two patterns but
*case-insensitively*, as independent components: the hours component times 60
plus the minutes component, absent components contributing 0, the result
floored.  Case-insensitive matching of these all-lowercase patterns is
modelled by lowercasing the subject string first. -/

/-- The subject string as Python `re` sees it under `re.IGNORECASE`,
modelled by ASCII lowercasing. -/
def lowerData (s : String) : List Char := s.data.map Char.toLower

/-- Spec 4.4, hours component (case-insensitive), as a rational. -/
def hoursValueCI (s : String) : ℚ :=
  match searchHours (lowerData s) with
  | some (a, k) => (a : ℚ) / 10 ^ k
  | none => 0

/-- Spec 4.4, minutes component (case-insensitive). -/
def minsValueCI (s : String) : Nat :=
  match searchMins (lowerData s) with
  | some m => m
  | none => 0

/-- `to_minutes` exactly as spec section 4.4 words it (claim C1):
case-insensitive components, hours times 60 plus minutes, floored. -/
def to_minutes_spec (s : String) : Int :=
  if s = "N/A" then 0 else Int.floor (hoursValueCI s * 60 + (minsValueCI s : ℚ))

/-- Hours component with the case-sensitivity the code actually has
(the amended reference definition). -/
def hoursValue (s : String) : ℚ :=
  match searchHours s.data with
  | some (a, k) => (a : ℚ) / 10 ^ k
  | none => 0

/-- Minutes component with the case-sensitivity the code actually has. -/
def minsValue (s : String) : Nat :=
  match searchMins s.data with
  | some m => m
  | none => 0

/-- Spec section 4.4 amended to case-sensitive matching. -/
def to_minutes_specCS (s : String) : Int :=
  if s = "N/A" then 0 else Int.floor (hoursValue s * 60 + (minsValue s : ℚ))

/-! ### Evaluation lemmas: the rational total floors to a natural number. -/

/-- Hours-group contribution, in integer arithmetic. -/
def hoursNat (s : String) : Nat :=
  match searchHours s.data with
  | some (a, k) => a * 60 / 10 ^ k
  | none => 0

/-- Minutes-group contribution, in integer arithmetic. -/
def minsNat (s : String) : Nat :=
  match searchMins s.data with
  | some m => m
  | none => 0

theorem floor_div_pow (a k : ℕ) :
    Int.floor ((a : ℚ) / 10 ^ k * 60) = ((a * 60 / 10 ^ k : ℕ) : ℤ) := by
  have h : (a : ℚ) / 10 ^ k * 60 = ((a * 60 : ℕ) : ℚ) / ((10 ^ k : ℕ) : ℚ) := by
    push_cast
    ring
  rw [h, Rat.floor_natCast_div_natCast]
  exact (Int.natCast_div _ _).symm

theorem minsTotal_floor (s : String) :
    Int.floor (minsTotal s) = ((hoursNat s + minsNat s : ℕ) : ℤ) := by
  unfold minsTotal hoursNat minsNat
  rcases hh : searchHours s.data with _ | ⟨a, k⟩ <;>
    rcases hm : searchMins s.data with _ | m <;>
      simp only [zero_add, Nat.add_zero, Nat.zero_add]
  · simp
  · simp
  · exact floor_div_pow a k
  · rw [Int.floor_add_nat, floor_div_pow a k]
    push_cast
    ring

theorem convert_eval (s : String) :
    _convert_to_minutes s =
      if s = "N/A" then 0 else ((hoursNat s + minsNat s : ℕ) : ℤ) := by
  unfold _convert_to_minutes
  by_cases h : s = "N/A"
  · simp [h]
  · simp [h, minsTotal_floor]

/-- Spec-side hours contribution (case-insensitive), in integer arithmetic. -/
def hoursNatCI (s : String) : Nat :=
  match searchHours (lowerData s) with
  | some (a, k) => a * 60 / 10 ^ k
  | none => 0

theorem spec_eval (s : String) :
    to_minutes_spec s =
      if s = "N/A" then 0 else ((hoursNatCI s + minsValueCI s : ℕ) : ℤ) := by
  unfold to_minutes_spec hoursNatCI hoursValueCI
  by_cases h : s = "N/A"
  · simp [h]
  · simp only [h, if_false]
    rcases hh : searchHours (lowerData s) with _ | ⟨a, k⟩
    · simp
    · rw [Int.floor_add_nat, floor_div_pow a k]
      push_cast
      ring

theorem minsTotal_eq (s : String) :
    minsTotal s = hoursValue s * 60 + (minsValue s : ℚ) := by
  unfold minsTotal hoursValue minsValue
  rcases hh : searchHours s.data with _ | ⟨a, k⟩ <;>
    rcases hm : searchMins s.data with _ | m <;> simp

/-! ## Batch normalization pass (`format_xlsx`, scrape.py 441-483)

The pass iterates over the worksheet rows below the header, skips rows whose
time cell is falsy, overwrites every other time cell in place with the integer
minutes, and accumulates `total_minutes` and `course_count` over the rows
whose computed minutes are strictly positive.  There is no filtering of rows
containing `"questions"` anywhere in this function, and no row is removed
from the worksheet. -/

/-- A worksheet cell as the pass can see it: absent (`None`), a string written
by the scraping run, or an integer written by a previous normalization pass. -/
inductive CellVal where
  | empty
  | str (s : String)
  | int (n : Int)
deriving DecidableEq

/-- Python truthiness of a cell value (`if not row[2].value: continue`). -/
def CellVal.truthy : CellVal → Bool
  | .empty => false
  | .str s => s != ""
  | .int n => n != 0

/-- Python `str()` of a cell value (`time_str = str(row[2].value)`). -/
def CellVal.pyStr : CellVal → String
  | .empty => "None"
  | .str s => s
  | .int n => toString n

/-- One worksheet row: `Course Link, Course Title, Course Time`. -/
structure Row where
  link : CellVal
  title : CellVal
  time : CellVal
deriving DecidableEq

/-- One iteration of the `format_xlsx` row loop over the state
`(rows so far, total_minutes, course_count)`. -/
def formatStep (st : List Row × Int × Int) (r : Row) : List Row × Int × Int :=
  if r.time.truthy = false then (st.1 ++ [r], st.2.1, st.2.2)
  else
    let minutes := _convert_to_minutes r.time.pyStr
    let out := st.1 ++ [{ r with time := .int minutes }]
    if 0 < minutes then (out, st.2.1 + minutes, st.2.2 + 1)
    else (out, st.2.1, st.2.2)

/-- `format_xlsx`: the rewritten worksheet rows together with the
`total_minutes` and `course_count` aggregates. -/
def format_xlsx (rows : List Row) : List Row × Int × Int :=
  rows.foldl formatStep ([], 0, 0)

/-- How the pass rewrites one row: falsy time cell untouched, any other time
cell replaced by the computed integer minutes. -/
def formatRow (r : Row) : Row :=
  if r.time.truthy = false then r
  else { r with time := .int (_convert_to_minutes r.time.pyStr) }

/-- Whether a row enters the total/average aggregates: its time cell is truthy
and its normalized result is strictly positive. -/
def countsInAggregates (r : Row) : Bool :=
  r.time.truthy && decide (0 < _convert_to_minutes r.time.pyStr)

theorem format_fold (rows : List Row) (acc : List Row) (t c : Int) :
    rows.foldl formatStep (acc, t, c) =
      (acc ++ rows.map formatRow,
       t + ((rows.filter countsInAggregates).map
              (fun r => _convert_to_minutes r.time.pyStr)).sum,
       c + ((rows.filter countsInAggregates).length : ℤ)) := by
  induction rows generalizing acc t c with
  | nil => simp
  | cons r rs ih =>
    by_cases ht : r.time.truthy = false
    · have hc : countsInAggregates r = false := by
        simp [countsInAggregates, ht]
      have h1 : List.foldl formatStep (acc, t, c) (r :: rs) =
          List.foldl formatStep (acc ++ [r], t, c) rs := by
        simp [formatStep, ht]
      rw [h1, ih]
      simp [formatRow, ht, hc, List.append_assoc]
    · have ht2 : r.time.truthy = true := by
        revert ht; cases r.time.truthy <;> simp
      by_cases hp : 0 < _convert_to_minutes r.time.pyStr
      · have hc : countsInAggregates r = true := by
          simp [countsInAggregates, ht2, hp]
        have h1 : List.foldl formatStep (acc, t, c) (r :: rs) =
            List.foldl formatStep
              (acc ++ [formatRow r], t + _convert_to_minutes r.time.pyStr, c + 1) rs := by
          simp [formatStep, ht2, hp, formatRow]
        rw [h1, ih]
        simp only [Prod.mk.injEq, List.map_cons, List.filter_cons, hc, if_true,
          List.sum_cons, List.length_cons]
        refine ⟨by simp [List.append_assoc, formatRow, ht2], by ring, by push_cast; ring⟩
      · have hc : countsInAggregates r = false := by
          simp [countsInAggregates, hp]
        have h1 : List.foldl formatStep (acc, t, c) (r :: rs) =
            List.foldl formatStep (acc ++ [formatRow r], t, c) rs := by
          simp [formatStep, ht2, hp, formatRow]
        rw [h1, ih]
        simp [formatRow, ht2, hc, List.append_assoc]

theorem format_xlsx_spec (rows : List Row) :
    format_xlsx rows =
      (rows.map formatRow,
       ((rows.filter countsInAggregates).map
          (fun r => _convert_to_minutes r.time.pyStr)).sum,
       ((rows.filter countsInAggregates).length : ℤ)) := by
  unfold format_xlsx
  rw [format_fold]
  simp

/-! ### Digit-string facts needed for the idempotence analysis (claim C9) -/

theorem digitChar_isDigit : ∀ m : Nat, m < 10 → (Nat.digitChar m).isDigit = true := by
  decide

theorem toDigitsCore_digits (fuel : ℕ) :
    ∀ (n : ℕ) (ds : List Char), ds.all Char.isDigit = true →
      (Nat.toDigitsCore 10 fuel n ds).all Char.isDigit = true := by
  induction fuel with
  | zero => intro n ds h; simpa [Nat.toDigitsCore] using h
  | succ f ih =>
    intro n ds h
    have hd : (Nat.digitChar (n % 10)).isDigit = true :=
      digitChar_isDigit _ (Nat.mod_lt _ (by norm_num))
    by_cases h10 : n / 10 = 0
    · simp [Nat.toDigitsCore, h10, hd, h]
    · simp only [Nat.toDigitsCore, h10, if_false]
      exact ih _ _ (by simp [hd, h])

theorem natRepr_digits (m : ℕ) : (Nat.repr m).data.all Char.isDigit = true := by
  unfold Nat.repr Nat.toDigits
  exact toDigitsCore_digits _ _ _ rfl

/-- Rendering a strictly positive Python integer yields a pure digit string. -/
theorem intToString_digits (n : Int) (h : 0 < n) :
    (toString n).data.all Char.isDigit = true := by
  cases n with
  | ofNat m => exact natRepr_digits m
  | negSucc m => exact absurd h (not_lt.mpr (le_of_lt (Int.negSucc_lt_zero m)))

theorem span_all_digits (cs : List Char) (h : cs.all Char.isDigit = true) :
    cs.span Char.isDigit = (cs, []) := by
  rw [List.span_eq_take_drop]
  have hmem : ∀ c ∈ cs, Char.isDigit c = true := by simpa [List.all_eq_true] using h
  rw [List.takeWhile_eq_self_iff.mpr hmem, List.dropWhile_eq_nil_iff.mpr hmem]

theorem searchHours_digits (cs : List Char) (h : cs.all Char.isDigit = true) :
    searchHours cs = none := by
  induction cs with
  | nil => rfl
  | cons c cs ih =>
    have h2 : cs.all Char.isDigit = true := by
      simp only [List.all_cons, Bool.and_eq_true] at h
      exact h.2
    have hm : matchHoursAt (c :: cs) = none := by
      unfold matchHoursAt
      rw [span_all_digits _ h]
      simp [hourAfter]
    simp [searchHours, hm, ih h2]

theorem searchMins_digits (cs : List Char) (h : cs.all Char.isDigit = true) :
    searchMins cs = none := by
  induction cs with
  | nil => rfl
  | cons c cs ih =>
    have h2 : cs.all Char.isDigit = true := by
      simp only [List.all_cons, Bool.and_eq_true] at h
      exact h.2
    have hm : matchMinsAt (c :: cs) = none := by
      unfold matchMinsAt
      rw [span_all_digits _ h]
      simp [minAfter]
    simp [searchMins, hm, ih h2]

theorem convert_no_match (s : String) (hh : searchHours s.data = none)
    (hm : searchMins s.data = none) : _convert_to_minutes s = 0 := by
  rw [convert_eval]
  by_cases hs : s = "N/A"
  · simp [hs]
  · simp [hs, hoursNat, minsNat, hh, hm]

theorem convert_digits (s : String) (h : s.data.all Char.isDigit = true) :
    _convert_to_minutes s = 0 :=
  convert_no_match s (searchHours_digits _ h) (searchMins_digits _ h)

/-- Rewriting a row whose time cell holds a strictly positive integer (as a
second normalization pass sees rows written by the first) zeroes it: the
rendered integer is a pure digit string, which matches neither pattern. -/
theorem formatRow_pos_int (r : Row) (n : Int) (hn : r.time = CellVal.int n)
    (hp : 0 < n) : (formatRow r).time = CellVal.int 0 := by
  have ht : r.time.truthy = true := by
    rw [hn]
    simp only [CellVal.truthy, bne_iff_ne, ne_eq, decide_eq_true_eq]
    omega
  unfold formatRow
  rw [if_neg (by simp [ht])]
  simp [hn, CellVal.pyStr, convert_digits _ (intToString_digits n hp)]

/-! ## Discovery enumeration (`_get_all_course_urls`, scrape.py 225-267)

The function is embedded over an abstract page oracle `fetch`: for page `p`,
`fetch p = some links` models `sb.uc_open` on `?p=p` followed by the course
grid rendering and the per-course hrefs being extracted; `fetch p = none`
models the wait-for-grid (`sb.get_element`) timing out, which raises an
uncaught exception and aborts the whole function.  The result records the
returned list (or `none` for the raised exception), the pages navigated to,
and the cache entry written, if any. -/

/-- The persisted `{pages_count, urls}` discovery-cache entry. -/
structure CacheEntry where
  pages_count : Nat
  urls : List String
deriving DecidableEq

structure CrawlResult where
  result : Option (List String)
  visited : List Nat
  cacheWritten : Option CacheEntry
deriving DecidableEq

/-- The page loop (scrape.py 247-260): crawl `n` pages starting at page `p`,
prefixing each extracted href with the site origin; a page whose grid never
renders aborts after the navigation to it. -/
def crawlPages (fetch : Nat → Option (List String)) :
    Nat → Nat → List String → List Nat → Option (List String) × List Nat
  | _, 0, acc, vis => (some acc, vis)
  | p, n + 1, acc, vis =>
    match fetch p with
    | none => (none, vis ++ [p])
    | some links =>
      crawlPages fetch (p + 1) n
        (acc ++ links.map (fun l => String.append "https://www.udemy.com" l))
        (vis ++ [p])

/-- The URLs one page contributes on success. -/
def pageUrls (fetch : Nat → Option (List String)) (p : Nat) : List String :=
  match fetch p with
  | some links => links.map (fun l => String.append "https://www.udemy.com" l)
  | none => []

/-- The URLs a fully successful crawl of `n` pages from `p` accumulates. -/
def crawlConcat (fetch : Nat → Option (List String)) : Nat → Nat → List String
  | _, 0 => []
  | p, n + 1 => pageUrls fetch p ++ crawlConcat fetch (p + 1) n

/-- The cache-miss path: crawl every page, then (only on completion) persist
the new `{pages_count, urls}` entry (scrape.py 262-265). -/
def crawlAll (pages_count : Nat) (fetch : Nat → Option (List String)) :
    CrawlResult :=
  let pair := crawlPages fetch 1 pages_count [] []
  { result := pair.1
    visited := pair.2
    cacheWritten :=
      match pair.1 with
      | some urls => some ⟨pages_count, urls⟩
      | none => none }

/-- `_get_all_course_urls` (scrape.py 225-267): on a stored entry whose
`pages_count` equals the computed one, return its URL list with no navigation;
otherwise (mismatch or no cache file) re-crawl everything. -/
def _get_all_course_urls (cache : Option CacheEntry) (pages_count : Nat)
    (fetch : Nat → Option (List String)) : CrawlResult :=
  match cache with
  | some entry =>
    if entry.pages_count = pages_count then
      { result := some entry.urls, visited := [], cacheWritten := none }
    else crawlAll pages_count fetch
  | none => crawlAll pages_count fetch

theorem crawlPages_success (fetch : Nat → Option (List String)) :
    ∀ (n p : Nat) (acc : List String) (vis : List Nat),
      (∀ i ∈ List.range' p n, fetch i ≠ none) →
      crawlPages fetch p n acc vis =
        (some (acc ++ crawlConcat fetch p n), vis ++ List.range' p n) := by
  intro n
  induction n with
  | zero =>
    intro p acc vis _
    simp [crawlPages, crawlConcat]
  | succ m ih =>
    intro p acc vis h
    have hp : fetch p ≠ none := h p (by rw [List.range'_succ]; exact List.mem_cons_self p _)
    rcases hfp : fetch p with _ | links
    · exact absurd hfp hp
    · have htail : ∀ i ∈ List.range' (p + 1) m, fetch i ≠ none := by
        intro i hi
        exact h i (by rw [List.range'_succ]; exact List.mem_cons_of_mem p hi)
      simp only [crawlPages, hfp]
      rw [ih (p + 1) _ _ htail]
      simp [crawlConcat, pageUrls, hfp, List.range'_succ]

theorem crawlPages_abort (fetch : Nat → Option (List String)) :
    ∀ (n p : Nat) (acc : List String) (vis : List Nat),
      (∃ i ∈ List.range' p n, fetch i = none) →
      (crawlPages fetch p n acc vis).1 = none := by
  intro n
  induction n with
  | zero =>
    intro p acc vis h
    rcases h with ⟨i, hi, _⟩
    simp at hi
  | succ m ih =>
    intro p acc vis h
    rcases hfp : fetch p with _ | links
    · simp [crawlPages, hfp]
    · rcases h with ⟨i, hi, hnone⟩
      rw [List.range'_succ] at hi
      rcases List.mem_cons.mp hi with he | ht
      · rw [← he] at hfp
        rw [hfp] at hnone
        exact absurd hnone (by simp)
      · simp only [crawlPages, hfp]
        exact ih (p + 1) _ _ ⟨i, ht, hnone⟩

theorem crawlPages_all_fetched (fetch : Nat → Option (List String)) :
    ∀ (n p : Nat) (acc : List String) (vis : List Nat) (urls : List String),
      (crawlPages fetch p n acc vis).1 = some urls →
      ∀ i ∈ List.range' p n, fetch i ≠ none := by
  intro n
  induction n with
  | zero =>
    intro p acc vis urls _ i hi
    simp at hi
  | succ m ih =>
    intro p acc vis urls hres i hi
    rcases hfp : fetch p with _ | links
    · rw [show crawlPages fetch p (m + 1) acc vis = (none, vis ++ [p]) by
        simp [crawlPages, hfp]] at hres
      exact absurd hres (by simp)
    · rw [List.range'_succ] at hi
      rcases List.mem_cons.mp hi with he | ht
      · rw [he, hfp]; simp
      · refine ih (p + 1)
          (acc ++ links.map (fun l => String.append "https://www.udemy.com" l))
          (vis ++ [p]) urls ?_ i ht
        rw [show (crawlPages fetch p (m + 1) acc vis).1 =
          (crawlPages fetch (p + 1) m
            (acc ++ links.map (fun l => String.append "https://www.udemy.com" l))
            (vis ++ [p])).1 by simp [crawlPages, hfp]] at hres
        exact hres

theorem crawlAll_atomic (pc : Nat) (fetch : Nat → Option (List String)) :
    ((crawlAll pc fetch).result = none → (crawlAll pc fetch).cacheWritten = none) ∧
    (∀ e : CacheEntry, (crawlAll pc fetch).cacheWritten = some e →
      (crawlAll pc fetch).result = some e.urls ∧ e.pages_count = pc ∧
      ∀ i ∈ List.range' 1 pc, fetch i ≠ none) ∧
    (∀ i ∈ List.range' 1 pc, fetch i = none →
      (crawlAll pc fetch).result = none ∧ (crawlAll pc fetch).cacheWritten = none) := by
  refine ⟨?_, ?_, ?_⟩
  · intro h
    rcases hr : (crawlPages fetch 1 pc [] []).1 with _ | urls
    · simp [crawlAll, hr]
    · rw [show (crawlAll pc fetch).result = (crawlPages fetch 1 pc [] []).1 from rfl,
        hr] at h
      exact absurd h (by simp)
  · intro e hw
    rcases hr : (crawlPages fetch 1 pc [] []).1 with _ | urls
    · rw [show (crawlAll pc fetch).cacheWritten =
        (match (crawlPages fetch 1 pc [] []).1 with
          | some urls => some (CacheEntry.mk pc urls)
          | none => none) from rfl, hr] at hw
      exact absurd hw (by simp)
    · rw [show (crawlAll pc fetch).cacheWritten =
        (match (crawlPages fetch 1 pc [] []).1 with
          | some urls => some (CacheEntry.mk pc urls)
          | none => none) from rfl, hr] at hw
      have he : e = CacheEntry.mk pc urls := by
        have := hw
        simp at this
        exact this.symm
      subst he
      refine ⟨?_, rfl, ?_⟩
      · rw [show (crawlAll pc fetch).result = (crawlPages fetch 1 pc [] []).1 from rfl, hr]
      · exact crawlPages_all_fetched fetch pc 1 [] [] urls hr
  · intro i hi hnone
    have h1 : (crawlPages fetch 1 pc [] []).1 = none :=
      crawlPages_abort fetch pc 1 [] [] ⟨i, hi, hnone⟩
    constructor
    · rw [show (crawlAll pc fetch).result = (crawlPages fetch 1 pc [] []).1 from rfl, h1]
    · rw [show (crawlAll pc fetch).cacheWritten =
        (match (crawlPages fetch 1 pc [] []).1 with
          | some urls => some (CacheEntry.mk pc urls)
          | none => none) from rfl, h1]

/-! ## Per-course extraction (`_scrape_course_details`, scrape.py 330-439)

The loop walks the discovered course URLs.  Skip decisions (`existing`,
`ignored`) are taken before the per-item `try` block.  Inside it, the item is
served from the raw page cache or fetched (with the 2s duration probe deciding
the non-video classification), then the title and duration are extracted and
the row appended.  Any exception inside the block is caught at the item
boundary and the loop continues.  No in-memory set is updated while looping,
so each item's effect depends only on its own URL, the two sets, and the
per-URL outcome oracle. -/

/-- Python `str.strip()` on ASCII whitespace. -/
def pyStrip (s : String) : String :=
  String.mk (((s.data.dropWhile isSpaceChar).reverse.dropWhile isSpaceChar).reverse)

/-- Fuelled worker for Python `str.replace`: scan left to right, replacing
each non-overlapping occurrence of `old`.  The fuel (initially the subject
length) dominates the remaining subject, so it never runs out. -/
def replaceAllGo (old rep : List Char) : Nat → List Char → List Char
  | 0, cs => cs
  | _ + 1, [] => []
  | fuel + 1, c :: cs =>
    if List.isPrefixOf old (c :: cs) then
      rep ++ replaceAllGo old rep fuel ((c :: cs).drop old.length)
    else c :: replaceAllGo old rep fuel cs

/-- Python `str.replace(old, rep)` for the nonempty patterns used by the
title cleanup (the empty-pattern special case never arises). -/
def pyReplace (s old rep : String) : String :=
  if old = "" then s
  else String.mk (replaceAllGo old.data rep.data s.data.length s.data)

/-- The parsed detail page as the extractor reads it: the text of the
`<title>` element, if present, and the `video-length` container, if present,
holding the text of its `ud-heading-md` child, if that is present. -/
structure Page where
  titleEl : Option String
  videoLengthDiv : Option (Option String)
deriving DecidableEq

/-- Title cleanup (scrape.py 398-406): strip, then delete every occurrence of
`"Course: "` and of `" | Udemy"`; a missing `<title>` degrades to `"N/A"`. -/
def extractTitle (p : Page) : String :=
  match p.titleEl with
  | some t => pyReplace (pyReplace (pyStrip t) "Course: " "") " | Udemy" ""
  | none => "N/A"

/-- Duration extraction plus row assembly (scrape.py 408-421).  A missing
`video-length` container makes `video_length_div.find(...)` an attribute
access on `None`, raising (`.error`); a present container with a missing
`ud-heading-md` child degrades to `"N/A"`. -/
def extractRow (course_url : String) (p : Page) :
    Except Unit (String × String × String) :=
  match p.videoLengthDiv with
  | none => Except.error ()
  | some inner =>
    let course_time :=
      match inner with
      | some s => pyStrip s
      | none => "N/A"
    Except.ok (course_url, extractTitle p, course_time)

/-- What the world does for one non-skipped course reference: its page is in
the raw page cache; or it is fetched and the 2s duration probe finds the
indicator; or the probe times out (non-video); or some other exception is
raised while processing it. -/
inductive CourseOutcome where
  | cachedPage (p : Page)
  | freshPage (p : Page)
  | noVideo
  | raiseErr
deriving DecidableEq

/-- The externally visible effect of processing one course reference. -/
inductive ItemEffect where
  | skippedExisting
  | skippedIgnored
  | appended (row : String × String × String)
  | markedIgnored
  | errorCaught
deriving DecidableEq

/-- One iteration of the `_scrape_course_details` loop body. -/
def processItem (existing ignored : List String)
    (outcome : String → CourseOutcome) (course_url : String) : ItemEffect :=
  if course_url ∈ existing then .skippedExisting
  else if course_url ∈ ignored then .skippedIgnored
  else
    match outcome course_url with
    | .cachedPage p =>
      match extractRow course_url p with
      | .ok r => .appended r
      | .error _ => .errorCaught
    | .freshPage p =>
      match extractRow course_url p with
      | .ok r => .appended r
      | .error _ => .errorCaught
    | .noVideo => .markedIgnored
    | .raiseErr => .errorCaught

/-- Whether processing this reference navigates to its page (`sb.uc_open`):
skips are decided before any network access and cached pages are read from
disk.  An item that raises is conservatively counted as navigating. -/
def navigates (existing ignored : List String)
    (outcome : String → CourseOutcome) (course_url : String) : Bool :=
  if course_url ∈ existing then false
  else if course_url ∈ ignored then false
  else
    match outcome course_url with
    | .cachedPage _ => false
    | _ => true

/-- The rows `_scrape_course_details` appends to the Detail Store worksheet
over a run, in input order. -/
def newRows (existing ignored : List String) (outcome : String → CourseOutcome)
    (courses_list : List String) : List (String × String × String) :=
  courses_list.filterMap fun u =>
    match processItem existing ignored outcome u with
    | .appended r => some r
    | _ => none

/-- The course references appended to the ignored-courses file over a run. -/
def ignoredAppends (existing ignored : List String)
    (outcome : String → CourseOutcome) (courses_list : List String) :
    List String :=
  courses_list.filterMap fun u =>
    match processItem existing ignored outcome u with
    | .markedIgnored => some u
    | _ => none

/-- Python dict write `courses_details[title] = time`. -/
def dictInsert (m : List (String × String)) (k v : String) :
    List (String × String) :=
  if m.any (fun q => q.1 = k) then m.map (fun q => if q.1 = k then (k, v) else q)
  else m ++ [(k, v)]

/-- The `courses_details` mapping `_scrape_course_details` returns. -/
def _scrape_course_details (existing ignored : List String)
    (outcome : String → CourseOutcome) (courses_list : List String) :
    List (String × String) :=
  (newRows existing ignored outcome courses_list).foldl
    (fun m r => dictInsert m r.2.1 r.2.2) []

/-- `_get_ignored_courses` (scrape.py 300-316): the nonempty stripped lines
of the ignored-courses file. -/
def _get_ignored_courses (file : List String) : List String :=
  (file.map pyStrip).filter (fun l => l != "")

theorem extractRow_ok (course_url : String) (p : Page)
    (r : String × String × String)
    (h : extractRow course_url p = Except.ok r) : r.1 = course_url := by
  obtain ⟨tEl, vd⟩ := p
  rcases vd with _ | inner
  · exact absurd h (by simp [extractRow])
  · rcases inner with _ | s
    · have h2 : (course_url, extractTitle ⟨tEl, some none⟩, "N/A") = r := by
        simpa [extractRow] using h
      rw [← h2]
    · have h2 : (course_url, extractTitle ⟨tEl, some (some s)⟩, pyStrip s) = r := by
        simpa [extractRow] using h
      rw [← h2]

theorem processItem_raise (existing ignored : List String)
    (outcome : String → CourseOutcome) (u : String)
    (h1 : outcome u = .raiseErr) (h2 : u ∉ existing) (h3 : u ∉ ignored) :
    processItem existing ignored outcome u = .errorCaught := by
  simp [processItem, h1, h2, h3]

theorem processItem_appended (existing ignored : List String)
    (outcome : String → CourseOutcome) (v : String)
    (r : String × String × String)
    (h : processItem existing ignored outcome v = .appended r) : r.1 = v := by
  by_cases h1 : v ∈ existing
  · rw [show processItem existing ignored outcome v = .skippedExisting by
      simp [processItem, h1]] at h
    exact absurd h (by simp)
  by_cases h2 : v ∈ ignored
  · rw [show processItem existing ignored outcome v = .skippedIgnored by
      simp [processItem, h1, h2]] at h
    exact absurd h (by simp)
  rcases ho : outcome v with p | p | _ | _
  · rcases hr : extractRow v p with e | r0
    · rw [show processItem existing ignored outcome v = .errorCaught by
        simp [processItem, h1, h2, ho, hr]] at h
      exact absurd h (by simp)
    · rw [show processItem existing ignored outcome v = .appended r0 by
        simp [processItem, h1, h2, ho, hr]] at h
      have he : r0 = r := by simpa using h
      rw [← he]
      exact extractRow_ok v p r0 hr
  · rcases hr : extractRow v p with e | r0
    · rw [show processItem existing ignored outcome v = .errorCaught by
        simp [processItem, h1, h2, ho, hr]] at h
      exact absurd h (by simp)
    · rw [show processItem existing ignored outcome v = .appended r0 by
        simp [processItem, h1, h2, ho, hr]] at h
      have he : r0 = r := by simpa using h
      rw [← he]
      exact extractRow_ok v p r0 hr
  · rw [show processItem existing ignored outcome v = .markedIgnored by
      simp [processItem, h1, h2, ho]] at h
    exact absurd h (by simp)
  · rw [show processItem existing ignored outcome v = .errorCaught by
      simp [processItem, h1, h2, ho]] at h
    exact absurd h (by simp)

theorem newRows_mem (existing ignored : List String)
    (outcome : String → CourseOutcome) (l : List String)
    (r : String × String × String)
    (hr : r ∈ newRows existing ignored outcome l) :
    r.1 ∈ l ∧ processItem existing ignored outcome r.1 = .appended r := by
  rcases List.mem_filterMap.mp hr with ⟨v, hv, hfv⟩
  have hpv : processItem existing ignored outcome v = .appended r := by
    rcases hpe : processItem existing ignored outcome v with _ | _ | r0 | _ | _ <;>
      rw [hpe] at hfv <;> simp at hfv
    rw [hfv]
  have h1 : r.1 = v := processItem_appended _ _ _ _ _ hpv
  rw [h1]
  exact ⟨hv, hpv⟩

theorem ignoredAppends_mem (existing ignored : List String)
    (outcome : String → CourseOutcome) (l : List String) (w : String)
    (h : w ∈ ignoredAppends existing ignored outcome l) :
    w ∈ l ∧ processItem existing ignored outcome w = .markedIgnored := by
  rcases List.mem_filterMap.mp h with ⟨v, hv, hfv⟩
  rcases hpe : processItem existing ignored outcome v with _ | _ | r0 | _ | _ <;>
    rw [hpe] at hfv <;> simp at hfv
  rw [← hfv]
  exact ⟨hv, hpe⟩

/-! ## Authentication (`login` / `_perform_login`, scrape.py 54-160)

`login`'s try block opens the login page, and, unless forced or cookie-less,
loads the cookie file, refreshes, and asserts the account name is visible.
Its `except` clause catches exactly `(ValueError, AssertionError)`; every
other exception class raised inside the block (e.g. a WebDriver error from
`uc_open_with_reconnect`, `load_cookies` or `refresh`) propagates out of
`login`.  `_perform_login` retries up to `MAX_LOGIN_ATTEMPTS` times; inside
the loop, everything is under `except Exception`, so an attempt's outcome is
simply success or failure. -/

def MAX_LOGIN_ATTEMPTS : Nat := 3

/-- The outcome of a Python block: a value, or a raised exception tagged with
whether its class is `ValueError` or `AssertionError` (the only classes the
`login` try/except catches). -/
inductive PyResult (α : Type) where
  | ok (val : α)
  | exn (isValueOrAssertion : Bool)
deriving DecidableEq

/-- The environment `login` runs against. -/
structure LoginEnv where
  openPage : PyResult Unit
  cookieProbe : PyResult Unit
  attempt : Nat → Bool

/-- The `while current_attempt < self.MAX_LOGIN_ATTEMPTS` loop of
`_perform_login`, returning the result and the number of attempts made. -/
def attemptLoop (attempt : Nat → Bool) (current_attempt : Nat) : Bool × Nat :=
  if h : current_attempt < MAX_LOGIN_ATTEMPTS then
    if attempt (current_attempt + 1) then (true, 1)
    else ((attemptLoop attempt (current_attempt + 1)).1,
          (attemptLoop attempt (current_attempt + 1)).2 + 1)
  else (false, 0)
termination_by MAX_LOGIN_ATTEMPTS - current_attempt

/-- `_perform_login` (scrape.py 97-160). -/
def _perform_login (env : LoginEnv) : Bool := (attemptLoop env.attempt 0).1

/-- Number of interactive attempts a call to `_perform_login` makes. -/
def login_attempts_made (env : LoginEnv) : Nat := (attemptLoop env.attempt 0).2

/-- `login` (scrape.py 54-96).  An exception in the try block diverts to
`_perform_login` when it is a `ValueError`/`AssertionError` and propagates
otherwise; the deliberate `raise ValueError` on `force`/no-cookies always
diverts to `_perform_login`. -/
def login (force : Bool) (cookiesExist : Bool) (env : LoginEnv) :
    PyResult Bool :=
  match env.openPage with
  | .exn true => .ok (_perform_login env)
  | .exn false => .exn false
  | .ok _ =>
    match !force && cookiesExist with
    | true =>
      match env.cookieProbe with
      | .ok _ => .ok true
      | .exn true => .ok (_perform_login env)
      | .exn false => .exn false
    | false => .ok (_perform_login env)

theorem attemptLoop_count (attempt : Nat → Bool) :
    ∀ (n c : Nat), MAX_LOGIN_ATTEMPTS - c ≤ n →
      (attemptLoop attempt c).2 ≤ MAX_LOGIN_ATTEMPTS - c := by
  intro n
  induction n with
  | zero =>
    intro c hc
    have hge : ¬c < MAX_LOGIN_ATTEMPTS := by omega
    unfold attemptLoop
    rw [dif_neg hge]
    simp
  | succ m ih =>
    intro c hc
    by_cases h : c < MAX_LOGIN_ATTEMPTS
    · unfold attemptLoop
      rw [dif_pos h]
      by_cases ha : attempt (c + 1) = true
      · rw [if_pos ha]
        show 1 ≤ MAX_LOGIN_ATTEMPTS - c
        omega
      · rw [if_neg ha]
        have h2 := ih (c + 1) (by omega)
        show (attemptLoop attempt (c + 1)).2 + 1 ≤ MAX_LOGIN_ATTEMPTS - c
        omega
    · unfold attemptLoop
      rw [dif_neg h]
      simp

theorem attemptLoop_all_fail (attempt : Nat → Bool)
    (hall : ∀ i, attempt i = false) :
    ∀ (n c : Nat), MAX_LOGIN_ATTEMPTS - c ≤ n →
      (attemptLoop attempt c).1 = false := by
  intro n
  induction n with
  | zero =>
    intro c hc
    have hge : ¬c < MAX_LOGIN_ATTEMPTS := by omega
    unfold attemptLoop
    rw [dif_neg hge]
  | succ m ih =>
    intro c hc
    by_cases h : c < MAX_LOGIN_ATTEMPTS
    · unfold attemptLoop
      rw [dif_pos h, if_neg (by simp [hall])]
      exact ih (c + 1) (by omega)
    · unfold attemptLoop
      rw [dif_neg h]

/-! ## Loading the processed set (`_get_existing_courses`, scrape.py 269-298)

`existing_courses = {}` is initialized before the `try`; the loop fills it
from the worksheet's first column (skipping falsy first cells), and the
`except Exception` clause logs and falls through to `return existing_courses`,
so a raise anywhere during the read returns the mapping built so far.  The
worksheet iteration is modelled as a list of events: a row's first-column
value, or the read raising at that point. -/

/-- One event while iterating worksheet rows. -/
inductive RowEvent where
  | val (cell : Option String)
  | raiseRead
deriving DecidableEq

/-- Python dict write `existing_courses[url] = idx`. -/
def assocUpd (m : List (String × Nat)) (k : String) (v : Nat) :
    List (String × Nat) :=
  if m.any (fun q => q.1 = k) then m.map (fun q => if q.1 = k then (k, v) else q)
  else m ++ [(k, v)]

/-- The row loop with its enclosing try/except: a raise anywhere in the
iteration stops it and yields the mapping built so far.  `idx` counts rows
from 2 (`enumerate(..., start=2)`); a row with a falsy first cell
(`if row and row[0]`) is skipped. -/
def existingLoop : List RowEvent → Nat → List (String × Nat) → List (String × Nat)
  | [], _, acc => acc
  | .raiseRead :: _, _, acc => acc
  | .val c :: es, idx, acc =>
    match c with
    | some s =>
      if s != "" then existingLoop es (idx + 1) (assocUpd acc s idx)
      else existingLoop es (idx + 1) acc
    | none => existingLoop es (idx + 1) acc

/-- `_get_existing_courses` (scrape.py 269-298): empty mapping when the
Detail Store file does not exist, otherwise the (possibly truncated) read. -/
def _get_existing_courses (fileExists : Bool) (events : List RowEvent) :
    List (String × Nat) :=
  if fileExists then existingLoop events 2 [] else []

theorem existingLoop_raise (post : List RowEvent) :
    ∀ (pre : List RowEvent) (idx : Nat) (acc : List (String × Nat)),
      existingLoop (pre ++ RowEvent.raiseRead :: post) idx acc =
        existingLoop pre idx acc := by
  intro pre
  induction pre with
  | nil => intro idx acc; rfl
  | cons e es ih =>
    intro idx acc
    rcases e with c | _
    · rcases c with _ | s
      · exact ih (idx + 1) acc
      · by_cases hs : (s != "") = true
        · simp only [List.cons_append, existingLoop, hs, if_true]
          exact ih (idx + 1) (assocUpd acc s idx)
        · simp only [List.cons_append, existingLoop, hs, if_false]
          exact ih (idx + 1) acc
    · rfl

end UdemyScraper

namespace Claims

open UdemyScraper

/-- Claim C1, counterexample.  The reference definition of spec section 4.4 is
case-insensitive, but `_convert_to_minutes` searches with case-sensitive
patterns (no `re.IGNORECASE` in the source): on `"2 Hours"` the code returns
`0` while the section 4.4 reference returns `120`, so the two disagree. -/
theorem C1_case_insensitive_counterexample :
    _convert_to_minutes "2 Hours" = 0 ∧ to_minutes_spec "2 Hours" = 120 ∧
      _convert_to_minutes "2 Hours" ≠ to_minutes_spec "2 Hours" := by
  refine ⟨?_, ?_, ?_⟩
  · rw [convert_eval]; decide
  · rw [spec_eval]; decide
  · rw [convert_eval, spec_eval]; decide

/-- Claim C1, amended: `_convert_to_minutes` equals the section 4.4 reference
definition amended to *case-sensitive* matching of the hours and minutes
patterns, for every input string: `"N/A"` maps to 0, a matched hours component
contributes its value times 60, a matched minutes component its integer value,
absent components contribute 0, and the result is floored.  The five concrete
spec examples hold as stated. -/
theorem C1_to_minutes_matches_case_sensitive_spec :
    (∀ s : String, _convert_to_minutes s = to_minutes_specCS s) ∧
      _convert_to_minutes "5 hours 30 mins" = 330 ∧
      _convert_to_minutes "45 mins" = 45 ∧
      _convert_to_minutes "2 hours" = 120 ∧
      _convert_to_minutes "N/A" = 0 ∧
      _convert_to_minutes "" = 0 := by
  refine ⟨fun s => ?_, ?_, ?_, ?_, ?_, ?_⟩
  · unfold _convert_to_minutes to_minutes_specCS
    rw [minsTotal_eq]
  all_goals rw [convert_eval]; decide

/-- Claim C2, counterexample.  `format_xlsx` contains no `"questions"` filter:
a row whose title contains the substring `"questions"` and whose time cell is
`"5 mins"` is rewritten in place (not excluded from the output) and it does
enter the aggregates, contributing 5 minutes to the total and 1 to the count. -/
theorem C2_questions_row_not_excluded :
    List.IsInfix "questions".data "Practice: 150 questions".data ∧
      format_xlsx
          [⟨CellVal.str "https://www.udemy.com/course/x/",
            CellVal.str "Practice: 150 questions", CellVal.str "5 mins"⟩] =
        ([⟨CellVal.str "https://www.udemy.com/course/x/",
           CellVal.str "Practice: 150 questions", CellVal.int 5⟩], 5, 1) := by
  constructor
  · exact ⟨"Practice: 150 ".data, [], by decide⟩
  · have h5 : _convert_to_minutes "5 mins" = 5 := by rw [convert_eval]; decide
    simp [format_xlsx, formatStep, CellVal.truthy, CellVal.pyStr, h5]

/-- Claim C2, amended.  The batch pass excludes no row from the rewritten
output (rows containing `"questions"` included): every row is rewritten by
`formatRow`, which replaces each truthy time cell in place by its normalized
minutes; and the rows entering the total and count aggregates are exactly
those with a truthy time cell and a strictly positive normalized result. -/
theorem C2_rewrite_and_aggregates :
    ∀ rows : List Row,
      (format_xlsx rows).1 = rows.map formatRow ∧
      (format_xlsx rows).1.length = rows.length ∧
      (format_xlsx rows).2.1 =
        ((rows.filter countsInAggregates).map
          (fun r => _convert_to_minutes r.time.pyStr)).sum ∧
      (format_xlsx rows).2.2 = ((rows.filter countsInAggregates).length : ℤ) := by
  intro rows
  rw [format_xlsx_spec]
  simp

/-- Claim C3, confirmed.  With a stored cache entry: if its `pages_count`
equals the freshly computed one, the stored URL list is returned verbatim,
no page is navigated to and nothing is rewritten; if it differs, the entry is
ignored and the full crawl runs — when no page times out, every page
`1..pages_count` is visited and the accumulated crawl is returned. -/
theorem C3_cache_hit_and_invalidation (entry : CacheEntry) (pc : Nat)
    (fetch : Nat → Option (List String)) :
    (entry.pages_count = pc →
      _get_all_course_urls (some entry) pc fetch =
        { result := some entry.urls, visited := [], cacheWritten := none }) ∧
    (entry.pages_count ≠ pc →
      _get_all_course_urls (some entry) pc fetch = crawlAll pc fetch ∧
      ((∀ i ∈ List.range' 1 pc, fetch i ≠ none) →
        (_get_all_course_urls (some entry) pc fetch).visited = List.range' 1 pc ∧
        (_get_all_course_urls (some entry) pc fetch).result =
          some (crawlConcat fetch 1 pc))) := by
  constructor
  · intro he
    simp [_get_all_course_urls, he]
  · intro hne
    have hmiss : _get_all_course_urls (some entry) pc fetch = crawlAll pc fetch := by
      simp [_get_all_course_urls, hne]
    refine ⟨hmiss, fun hok => ?_⟩
    rw [hmiss]
    unfold crawlAll
    rw [crawlPages_success fetch pc 1 [] [] hok]
    simp

/-- Claim C3's hypotheses are satisfiable: a hit on a matching entry returns
the stored list with no navigation, and a mismatching entry forces a full
crawl of both pages. -/
theorem C3_cache_hit_and_invalidation_witness :
    _get_all_course_urls (some ⟨2, ["cached1", "cached2"]⟩) 2
        (fun _ => some ["/course/a/"]) =
      { result := some ["cached1", "cached2"], visited := [], cacheWritten := none } ∧
    (_get_all_course_urls (some ⟨1, ["stale"]⟩) 2
        (fun _ => some ["/course/a/"])).visited = List.range' 1 2 :=
  ⟨(C3_cache_hit_and_invalidation ⟨2, ["cached1", "cached2"]⟩ 2 _).1 rfl,
   (((C3_cache_hit_and_invalidation ⟨1, ["stale"]⟩ 2 _).2 (by decide)).2
      (by intro i hi; simp)).1⟩

/-- Claim C7, confirmed.  The enumeration is atomic with respect to its cache:
a written `{pages_count, urls}` entry implies the crawl returned exactly that
list and every page's grid rendered; an aborted enumeration (some page's wait
timed out) returns no list and writes no cache entry. -/
theorem C7_enumeration_atomic (cache : Option CacheEntry) (pc : Nat)
    (fetch : Nat → Option (List String)) :
    ((_get_all_course_urls cache pc fetch).result = none →
      (_get_all_course_urls cache pc fetch).cacheWritten = none) ∧
    (∀ e : CacheEntry, (_get_all_course_urls cache pc fetch).cacheWritten = some e →
      (_get_all_course_urls cache pc fetch).result = some e.urls ∧
      e.pages_count = pc ∧ ∀ i ∈ List.range' 1 pc, fetch i ≠ none) ∧
    ((∀ e : CacheEntry, cache = some e → e.pages_count ≠ pc) →
      ∀ i ∈ List.range' 1 pc, fetch i = none →
        (_get_all_course_urls cache pc fetch).result = none ∧
        (_get_all_course_urls cache pc fetch).cacheWritten = none) := by
  have hcore := crawlAll_atomic pc fetch
  rcases cache with _ | entry
  · exact ⟨hcore.1, hcore.2.1, fun _ => hcore.2.2⟩
  · by_cases he : entry.pages_count = pc
    · refine ⟨?_, ?_, ?_⟩
      · intro h
        simp [_get_all_course_urls, he] at h
      · intro e hw
        simp [_get_all_course_urls, he] at hw
      · intro hmiss
        exact absurd he (hmiss entry rfl)
    · have hrun : _get_all_course_urls (some entry) pc fetch = crawlAll pc fetch := by
        simp [_get_all_course_urls, he]
      rw [hrun]
      exact ⟨hcore.1, hcore.2.1, fun _ => hcore.2.2⟩

/-- Claim C7's hypotheses are satisfiable: with no cache and page 2's grid
timing out, the enumeration returns nothing and caches nothing, and a
successful run's written entry is exactly the returned list. -/
theorem C7_enumeration_atomic_witness :
    (_get_all_course_urls none 3
        (fun p => if p = 2 then none else some ["/course/a/"])).result = none ∧
    (_get_all_course_urls none 3
        (fun p => if p = 2 then none else some ["/course/a/"])).cacheWritten = none :=
  (C7_enumeration_atomic none 3 _).2.2 (fun e h => by simp at h) 2 (by decide) (by decide)

/-- Claim C4, confirmed.  If processing course reference `u` raises an
uncaught error, it is caught at the per-item boundary: the run over
`pre ++ u :: post` appends to the Detail Store and to the Ignored Set exactly
what the run over `pre ++ post` appends (so every other item, including all of
`post`, is processed unchanged), and `u` itself enters neither the Detail
Store nor the Ignored Set. -/
theorem C4_per_item_failure_isolation (existing ignored : List String)
    (outcome : String → CourseOutcome) (pre post : List String) (u : String)
    (h1 : outcome u = CourseOutcome.raiseErr) (h2 : u ∉ existing)
    (h3 : u ∉ ignored) :
    newRows existing ignored outcome (pre ++ u :: post) =
      newRows existing ignored outcome (pre ++ post) ∧
    ignoredAppends existing ignored outcome (pre ++ u :: post) =
      ignoredAppends existing ignored outcome (pre ++ post) ∧
    (∀ r ∈ newRows existing ignored outcome (pre ++ u :: post), r.1 ≠ u) ∧
    u ∉ ignoredAppends existing ignored outcome (pre ++ u :: post) := by
  have hu : processItem existing ignored outcome u = .errorCaught :=
    processItem_raise existing ignored outcome u h1 h2 h3
  refine ⟨?_, ?_, ?_, ?_⟩
  · unfold newRows
    rw [List.filterMap_append, List.filterMap_append, List.filterMap_cons]
    simp [hu]
  · unfold ignoredAppends
    rw [List.filterMap_append, List.filterMap_append, List.filterMap_cons]
    simp [hu]
  · intro r hr hru
    have hp := (newRows_mem existing ignored outcome _ r hr).2
    rw [hru, hu] at hp
    exact absurd hp (by simp)
  · intro hmem
    have hp := (ignoredAppends_mem existing ignored outcome _ u hmem).2
    rw [hu] at hp
    exact absurd hp (by simp)

/-- Claim C4's hypotheses are satisfiable: with item `"B"` raising, the run
over `["A", "B", "C"]` appends exactly what the run over `["A", "C"]` does. -/
theorem C4_per_item_failure_isolation_witness :
    newRows [] []
        (fun v => if v = "B" then CourseOutcome.raiseErr
          else CourseOutcome.freshPage ⟨some "T", some (some "1 hour")⟩)
        ["A", "B", "C"] =
      newRows [] []
        (fun v => if v = "B" then CourseOutcome.raiseErr
          else CourseOutcome.freshPage ⟨some "T", some (some "1 hour")⟩)
        ["A", "C"] :=
  (C4_per_item_failure_isolation [] [] _ ["A"] ["C"] "B" (by simp) (by simp)
    (by simp)).1

/-- Claim C6, confirmed.  A reference in the Ignored Set loaded at run start
is skipped before any navigation (the run never opens its page), and since
the run only ever appends to the ignored-courses file, the reference is still
in the set any subsequent run loads. -/
theorem C6_ignored_skipped_without_probe (existing : List String)
    (file : List String) (outcome : String → CourseOutcome)
    (urls : List String) (u : String) (h : u ∈ _get_ignored_courses file) :
    navigates existing (_get_ignored_courses file) outcome u = false ∧
    (processItem existing (_get_ignored_courses file) outcome u =
        ItemEffect.skippedExisting ∨
      processItem existing (_get_ignored_courses file) outcome u =
        ItemEffect.skippedIgnored) ∧
    u ∈ _get_ignored_courses
        (file ++
          ignoredAppends existing (_get_ignored_courses file) outcome urls) := by
  refine ⟨?_, ?_, ?_⟩
  · unfold navigates
    by_cases h1 : u ∈ existing
    · simp [h1]
    · simp [h1, h]
  · by_cases h1 : u ∈ existing
    · exact Or.inl (by simp [processItem, h1])
    · exact Or.inr (by simp [processItem, h1, h])
  · unfold _get_ignored_courses at h ⊢
    rw [List.map_append, List.filter_append]
    exact List.mem_append_left _ h

/-- Claim C6's hypotheses are satisfiable: a concrete ignored reference is
never navigated to even when it reappears in the discovery list. -/
theorem C6_ignored_skipped_without_probe_witness :
    navigates [] (_get_ignored_courses ["https://www.udemy.com/course/a/"])
        (fun _ => CourseOutcome.freshPage ⟨some "T", some (some "1 hour")⟩)
        "https://www.udemy.com/course/a/" = false :=
  (C6_ignored_skipped_without_probe [] ["https://www.udemy.com/course/a/"]
    (fun _ => CourseOutcome.freshPage ⟨some "T", some (some "1 hour")⟩)
    ["https://www.udemy.com/course/a/"] "https://www.udemy.com/course/a/"
    (by decide)).1

/-- Claim C8, counterexample.  A page whose duration element is missing does
not always degrade to `"N/A"`: when the whole `video-length` container is
absent, `video_length_div.find(...)` is an attribute access on `None`, the
item raises, is caught at the per-item boundary, and is *not* appended to the
Detail Store. -/
theorem C8_missing_container_not_appended :
    processItem [] []
        (fun _ => CourseOutcome.freshPage ⟨some "Some Title", none⟩) "u" =
      ItemEffect.errorCaught ∧
    newRows [] [] (fun _ => CourseOutcome.freshPage ⟨some "Some Title", none⟩)
        ["u"] = [] := by
  constructor <;> decide

/-- Claim C8, amended.  A missing `<title>` element degrades to an `"N/A"`
title and the item is appended; a missing duration heading *inside a present
`video-length` container* degrades to an `"N/A"` duration and the item is
appended; but a page with no `video-length` container at all raises, and the
item is caught and skipped instead of being appended. -/
theorem C8_missing_fields_degrade (existing ignored : List String)
    (outcome : String → CourseOutcome) (u t d : String)
    (h2 : u ∉ existing) (h3 : u ∉ ignored) :
    (outcome u = CourseOutcome.freshPage ⟨none, some (some d)⟩ →
      processItem existing ignored outcome u =
        ItemEffect.appended (u, "N/A", pyStrip d)) ∧
    (outcome u = CourseOutcome.freshPage ⟨some t, some none⟩ →
      processItem existing ignored outcome u =
        ItemEffect.appended (u, extractTitle ⟨some t, some none⟩, "N/A")) ∧
    (outcome u = CourseOutcome.freshPage ⟨some t, none⟩ →
      processItem existing ignored outcome u = ItemEffect.errorCaught) := by
  refine ⟨fun ho => ?_, fun ho => ?_, fun ho => ?_⟩ <;>
    simp [processItem, h2, h3, ho, extractRow, extractTitle]

/-- Claim C8's hypotheses are satisfiable: concrete pages with the title,
respectively the duration heading, missing are appended with `"N/A"`. -/
theorem C8_missing_fields_degrade_witness :
    processItem [] [] (fun _ => CourseOutcome.freshPage ⟨none, some (some "2 hours")⟩)
        "u" = ItemEffect.appended ("u", "N/A", pyStrip "2 hours") ∧
    processItem [] [] (fun _ => CourseOutcome.freshPage ⟨some "T", some none⟩)
        "u" = ItemEffect.appended ("u", extractTitle ⟨some "T", some none⟩, "N/A") :=
  ⟨(C8_missing_fields_degrade [] []
      (fun _ => CourseOutcome.freshPage ⟨none, some (some "2 hours")⟩)
      "u" "T" "2 hours" (by simp) (by simp)).1 rfl,
   (C8_missing_fields_degrade [] []
      (fun _ => CourseOutcome.freshPage ⟨some "T", some none⟩)
      "u" "T" "2 hours" (by simp) (by simp)).2.1 rfl⟩

/-- Claim C9, confirmed.  Any string matched by neither pattern normalizes to
0, in particular any pure digit string such as `"330"`; consequently the pass
is not idempotent: in a second pass over the rewritten rows, every time cell
that the first pass set to a strictly positive integer is replaced by 0. -/
theorem C9_second_pass_zeroes_durations :
    (∀ s : String, searchHours s.data = none → searchMins s.data = none →
        _convert_to_minutes s = 0) ∧
      (∀ s : String, s.data.all Char.isDigit = true → _convert_to_minutes s = 0) ∧
      _convert_to_minutes "330" = 0 ∧
      (∀ rows : List Row,
        List.Forall₂
          (fun r1 r2 => ∀ n : Int, r1.time = CellVal.int n → 0 < n →
            r2.time = CellVal.int 0)
          (format_xlsx rows).1 (format_xlsx (format_xlsx rows).1).1) := by
  refine ⟨convert_no_match, convert_digits, by rw [convert_eval]; decide, ?_⟩
  intro rows
  rw [format_xlsx_spec, format_xlsx_spec]
  have hgen : ∀ l : List Row,
      List.Forall₂
        (fun r1 r2 => ∀ n : Int, r1.time = CellVal.int n → 0 < n →
          r2.time = CellVal.int 0)
        l (l.map formatRow) := by
    intro l
    induction l with
    | nil => exact List.Forall₂.nil
    | cons x xs ih =>
      exact List.Forall₂.cons (fun n hn hp => formatRow_pos_int x n hn hp) ih
  exact hgen (rows.map formatRow)

/-- Claim C9's hypotheses are satisfiable: concrete instantiations of the
quantified conjuncts. -/
theorem C9_second_pass_zeroes_durations_witness :
    _convert_to_minutes "abc" = 0 ∧ _convert_to_minutes "777" = 0 :=
  ⟨C9_second_pass_zeroes_durations.1 "abc" (by decide) (by decide),
    C9_second_pass_zeroes_durations.2.1 "777" (by decide)⟩

/-- Claim C5, counterexample.  `login` does not always return a boolean: its
except clause names only `(ValueError, AssertionError)`, so any other
exception class raised in the cookie-probe block (e.g. a WebDriver error from
`sb.refresh()` or `sb.load_cookies()`) propagates past `login`'s boundary
instead of diverting to the interactive loop. -/
theorem C5_cookie_phase_exception_escapes :
    login false true
        { openPage := PyResult.ok (), cookieProbe := PyResult.exn false,
          attempt := fun _ => true } =
      PyResult.exn false := rfl

/-- Claim C5, amended.  Provided every exception raised during the
cookie-probe phase is a `ValueError` or `AssertionError`, `login` returns a
boolean; the interactive loop makes at most `MAX_LOGIN_ATTEMPTS` attempts
(each attempt's internal errors are caught by its `except Exception` and
count as attempt failure, modelled by the attempt oracle returning `false`);
and when every attempt fails, `_perform_login` returns `False`. -/
theorem C5_login_bounded_retries (force cookiesExist : Bool) (env : LoginEnv)
    (hopen : env.openPage ≠ PyResult.exn false)
    (hprobe : env.cookieProbe ≠ PyResult.exn false) :
    (∃ b : Bool, login force cookiesExist env = PyResult.ok b) ∧
    login_attempts_made env ≤ MAX_LOGIN_ATTEMPTS ∧
    ((∀ i, env.attempt i = false) → _perform_login env = false) := by
  refine ⟨?_, ?_, ?_⟩
  · unfold login
    rcases ho : env.openPage with v | b
    · rcases hf : !force && cookiesExist
      · exact ⟨_perform_login env, rfl⟩
      · rcases hp : env.cookieProbe with w | b2
        · exact ⟨true, rfl⟩
        · rcases b2 with _ | _
          · rw [hp] at hprobe
            exact absurd rfl hprobe
          · exact ⟨_perform_login env, rfl⟩
    · rcases b with _ | _
      · rw [ho] at hopen
        exact absurd rfl hopen
      · exact ⟨_perform_login env, rfl⟩
  · have h := attemptLoop_count env.attempt MAX_LOGIN_ATTEMPTS 0 (by omega)
    unfold login_attempts_made
    omega
  · intro hall
    exact attemptLoop_all_fail env.attempt hall MAX_LOGIN_ATTEMPTS 0 (by omega)

/-- Claim C5's hypotheses are satisfiable: with no fatal probe errors and
every interactive attempt failing, `login` still returns a boolean, and the
loop reports failure. -/
theorem C5_login_bounded_retries_witness :
    (∃ b : Bool,
      login false false
          { openPage := PyResult.ok (), cookieProbe := PyResult.ok (),
            attempt := fun _ => false } =
        PyResult.ok b) ∧
    _perform_login
        { openPage := PyResult.ok (), cookieProbe := PyResult.ok (),
          attempt := fun _ => false } =
      false :=
  ⟨(C5_login_bounded_retries false false _ (by simp) (by simp)).1,
   (C5_login_bounded_retries false false _ (by simp) (by simp)).2.2
     (fun _ => rfl)⟩

/-- Claim C10, confirmed.  `_get_existing_courses` returns the empty mapping
when the Detail Store file does not exist, and when reading the store raises
at any point of the iteration, the error is caught and the mapping built so
far is returned — nothing propagates, so a missing or unreadable store never
aborts the run. -/
theorem C10_existing_courses_never_aborts (events : List RowEvent)
    (pre post : List RowEvent) :
    _get_existing_courses false events = [] ∧
    _get_existing_courses true (pre ++ RowEvent.raiseRead :: post) =
      _get_existing_courses true pre := by
  constructor
  · rfl
  · unfold _get_existing_courses
    rw [if_pos rfl, if_pos rfl]
    exact existingLoop_raise post pre 2 []

end Claims

